import Mathlib

/-!
Shallow embedding of the trade-simulation and portfolio-accounting core of the
stock repository, together with theorems settling the spec claims.

Conventions of the embedding:
  * prices, returns and cash are exact rationals (the Python code uses floats;
    all claims at issue are about the exact arithmetic the formulas denote);
  * trading days are indices into per-symbol OHLC lists; calendar dates used by
    the portfolio simulator and the metrics pipeline are integers;
  * a missing (NaN) indicator value is `Option.none`;
  * Python functions that can bail out return `Option`.

Sources embedded:
  * src/optimization/backtest_engine_v2.py  (get_tick_size, calculate_net_pnl,
    simulate_exit_fixed, simulate_exit_trailing, run_capital_simulation_limited,
    calculate_metrics)
  * src/backtest_patterns.py  (generate_trade_candidates entry/exit logic,
    run_capital_simulation limited mode, calculate_metrics)
  * src/ml_enhanced/scripts/prepare_ml_data.py  (generate_labels entry scan)
  * src/archive/grok_back_final.py  (run_god_backtest single-day stop exit)
-/

namespace Stock

/-- INITIAL_CAPITAL = 1_000_000 (backtest_engine_v2.py line 15). -/
def INITIAL_CAPITAL : ℚ := 1000000

/-- MAX_POSITIONS = 10 (backtest_engine_v2.py line 16). -/
def MAX_POSITIONS : ℕ := 10

/-- POSITION_SIZE_PCT = 0.10 (backtest_engine_v2.py line 17). -/
def POSITION_SIZE_PCT : ℚ := 1/10

/-- RISK_FREE_RATE = 0.02 (backtest_engine_v2.py line 18). -/
def RISK_FREE_RATE : ℚ := 1/50

/-- FEE_RATE = 0.001 (backtest_engine_v2.py line 20; the line-19 value 0.001425
is immediately overwritten). -/
def FEE_RATE : ℚ := 1/1000

/-- TAX_RATE = 0.003 (backtest_engine_v2.py line 21). -/
def TAX_RATE : ℚ := 3/1000

/-- get_tick_size (backtest_engine_v2.py lines 23-38): price-banded exchange
tick of the TW stock exchange. -/
def get_tick_size (price : ℚ) : ℚ :=
  if price < 10 then 1/100
  else if price < 50 then 1/20
  else if price < 100 then 1/10
  else if price < 500 then 1/2
  else if price < 1000 then 1
  else 5

/-- calculate_net_pnl (backtest_engine_v2.py lines 40-53): proportional fee on
both legs, tax on the sell leg only, returns (proceeds - cost) / cost. -/
def calculate_net_pnl (buy_price sell_price : ℚ) : ℚ :=
  let cost := buy_price * (1 + FEE_RATE)
  let proceeds := sell_price * (1 - FEE_RATE - TAX_RATE)
  (proceeds - cost) / cost

/-- Result of a fixed-policy exit simulation: relative exit index, the raw exit
price selected by the path scan, and the net pnl after slippage and costs. -/
structure SimResult where
  exit_rel_idx : ℕ
  raw_exit_price : ℚ
  pnl : ℚ
deriving Repr, DecidableEq

/-- simulate_exit_fixed (backtest_engine_v2.py lines 55-120): slippage of one
tick on entry, fixed R-multiple target and time stop over the candle path,
first-touch indices computed independently for stop and target, tie broken by
`stop_i < target_i`; one tick of slippage on exit and fee/tax via
calculate_net_pnl. -/
def simulate_exit_fixed (high low close : List ℚ) (entry_idx : ℕ)
    (buy_price stop_price r_mult : ℚ) (time_exit : ℕ) : Option SimResult :=
  let entry_tick := get_tick_size buy_price
  let real_buy_price := buy_price + entry_tick
  let risk := real_buy_price - stop_price
  if risk ≤ 0 then none
  else
    let target := real_buy_price + risk * r_mult
    let end_idx := min (entry_idx + time_exit) high.length
    let path_high := (high.take end_idx).drop entry_idx
    let path_low := (low.take end_idx).drop entry_idx
    let stop_i := path_low.findIdx? (fun l => decide (l ≤ stop_price))
    let target_i := path_high.findIdx? (fun h => decide (target ≤ h))
    let sel : ℕ × ℚ :=
      match stop_i, target_i with
      | none, none => ((end_idx - entry_idx) - 1, close.getD (end_idx - 1) 0)
      | some si, none => (si, stop_price)
      | none, some ti => (ti, target)
      | some si, some ti =>
          if si < ti then (si, stop_price) else (ti, target)
    let exit_tick := get_tick_size sel.2
    let real_exit_price := sel.2 - exit_tick
    some ⟨sel.1, sel.2, calculate_net_pnl real_buy_price real_exit_price⟩

/-- Fixed-target exit logic of generate_trade_candidates
(backtest_patterns.py lines 127-155): no slippage, pnl computed directly from
the raw prices, optional time-exit bound, same `stop_i < target_i` tie-break.
Returns (exit_abs index, pnl). -/
def patternsFixedExit (high low close : List ℚ) (entry_abs : ℕ)
    (buy stop r_mult : ℚ) (time_exit : Option ℕ) : ℕ × ℚ :=
  let risk := buy - stop
  let target := buy + risk * r_mult
  let path_end := match time_exit with
    | none => high.length
    | some te => min (entry_abs + te) high.length
  let path_high := (high.take path_end).drop entry_abs
  let path_low := (low.take path_end).drop entry_abs
  match path_low.findIdx? (fun l => decide (l ≤ stop)),
        path_high.findIdx? (fun h => decide (target ≤ h)) with
  | none, none => (path_end - 1, (close.getD (path_end - 1) 0 - buy) / buy)
  | some si, none => (entry_abs + si, (stop - buy) / buy)
  | none, some ti => (entry_abs + ti, (target - buy) / buy)
  | some si, some ti =>
      if si < ti then (entry_abs + si, (stop - buy) / buy)
      else (entry_abs + ti, (target - buy) / buy)

/-- Entry resolution of generate_trade_candidates (backtest_patterns.py lines
111-121): scan the highs of the 30 trading days strictly after the signal
index (`high_np[sig_idx + 1 : min(sig_idx + 31, len)]`) for the first day with
high >= buy; none if the window is empty or no day qualifies. -/
def patternsEntryIdx (high : List ℚ) (sig_idx : ℕ) (buy : ℚ) : Option ℕ :=
  let future_end := min (sig_idx + 31) high.length
  let future_high := (high.take future_end).drop (sig_idx + 1)
  if future_high.isEmpty then none
  else (future_high.findIdx? (fun h => decide (buy ≤ h))).map
    (fun r => sig_idx + 1 + r)

/-- Entry resolution of generate_labels (prepare_ml_data.py lines 180-188):
`future_data = stock_df[date > signal_date]` followed by the first row with
high >= buy_price — the scan is over ALL remaining days, with no 30-day
bound despite the adjacent comment "Limit Buy within 30 days". -/
def labelsEntryIdx (high : List ℚ) (sig_idx : ℕ) (buy : ℚ) : Option ℕ :=
  let future_high := high.drop (sig_idx + 1)
  (future_high.findIdx? (fun h => decide (buy ≤ h))).map
    (fun r => sig_idx + 1 + r)

/-- One candle of the walk of a trailing-stop simulation; `ma` is the trailing
indicator value for the day, `none` when the rolling mean is NaN. -/
structure TrailDay where
  high : ℚ
  low : ℚ
  close : ℚ
  ma : Option ℚ
deriving Repr, DecidableEq

/-- State of the trailing-stop walk: the current stop level and whether the
trailing trigger has fired. -/
structure TrailSt where
  current_stop : ℚ
  trailing_active : Bool
deriving Repr, DecidableEq

/-- Per-day state update of simulate_exit_trailing (backtest_engine_v2.py
lines 160-167), applied on a day that did not hit the stop: activate trailing
and move the stop to breakeven (`real_buy_price`) once high >= trigger_price,
then, while active, raise the stop to the indicator value when it is not NaN. -/
def trailUpdV2 (real_buy_price trigger_price : ℚ) (st : TrailSt)
    (d : TrailDay) : TrailSt :=
  let st1 := if !st.trailing_active && decide (trigger_price ≤ d.high)
    then ⟨real_buy_price, true⟩ else st
  if st1.trailing_active then
    match d.ma with
    | some m => ⟨max st1.current_stop m, true⟩
    | none => st1
  else st1

/-- Per-day state update of the trailing branch of generate_trade_candidates
(backtest_patterns.py lines 183-203): breakeven is the raw `buy` price, and in
addition to the indicator trail a ladder raises the stop by one whole R for
every full R of profit above the trigger (Python `int()` truncation; the value
is positive when used, so it is the floor). -/
def trailUpdLadder (buy risk trigger_r trigger_price : ℚ) (st : TrailSt)
    (d : TrailDay) : TrailSt :=
  let st1 := if !st.trailing_active && decide (trigger_price ≤ d.high)
    then ⟨buy, true⟩ else st
  if st1.trailing_active then
    let current_profit_r := (d.high - buy) / risk
    let r_above_trigger := current_profit_r - trigger_r
    let st2 := if 0 < r_above_trigger
      then ⟨max st1.current_stop (buy + (⌊r_above_trigger⌋ : ℚ) * risk), true⟩
      else st1
    match d.ma with
    | some m => ⟨max st2.current_stop m, true⟩
    | none => st2
  else st1

/-- Stop-hit scan of the trailing branch of generate_trade_candidates
(backtest_patterns.py lines 170-207): walk the path; on the first day whose
low is at or below the current stop, the trade exits with pnl
(current_stop - buy) / buy, that is at the current stop, unconditionally,
whatever the day's high or close. Between days the state evolves by
`trailUpdLadder`. Returns the relative exit index and the exit price, or none
when the data runs out first. -/
def trailStopHitLadder (buy risk trigger_r trigger_price : ℚ) :
    TrailSt → List TrailDay → Option (ℕ × ℚ)
  | _, [] => none
  | st, d :: rest =>
    if d.low ≤ st.current_stop then some (0, st.current_stop)
    else (trailStopHitLadder buy risk trigger_r trigger_price
        (trailUpdLadder buy risk trigger_r trigger_price st d) rest).map
      (fun r => (r.1 + 1, r.2))

/-- Stop-hit scan of simulate_exit_trailing (backtest_engine_v2.py lines
147-157): walk the path; on the first day whose low is at or below the current
stop, exit at the current stop — unconditionally, whatever the day's high or
close. Between days the state evolves by `trailUpdV2`. Returns the relative
exit index and the raw exit price, or none when the data runs out first. -/
def trailStopHitV2 (real_buy_price trigger_price : ℚ) :
    TrailSt → List TrailDay → Option (ℕ × ℚ)
  | _, [] => none
  | st, d :: rest =>
    if d.low ≤ st.current_stop then some (0, st.current_stop)
    else (trailStopHitV2 real_buy_price trigger_price
        (trailUpdV2 real_buy_price trigger_price st d) rest).map
      (fun r => (r.1 + 1, r.2))

/-- simulate_exit_trailing (backtest_engine_v2.py lines 122-187): entry
slippage of one tick, stop-hit walk from the entry day, exit at the final
close when no stop is hit, one tick of exit slippage and fee/tax. -/
def simulate_exit_trailing (high low close : List ℚ) (ma : List (Option ℚ))
    (entry_idx : ℕ) (buy_price stop_price trigger_r : ℚ) : Option SimResult :=
  let entry_tick := get_tick_size buy_price
  let real_buy_price := buy_price + entry_tick
  let risk := real_buy_price - stop_price
  if risk ≤ 0 then none
  else
    let trigger_price := real_buy_price + risk * trigger_r
    let path : List TrailDay :=
      List.zipWith (fun (hl : ℚ × ℚ) (cm : ℚ × Option ℚ) =>
          ⟨hl.1, hl.2, cm.1, cm.2⟩)
        (List.zip (high.drop entry_idx) (low.drop entry_idx))
        (List.zip (close.drop entry_idx) (ma.drop entry_idx))
    let sel : ℕ × ℚ :=
      match trailStopHitV2 real_buy_price trigger_price ⟨stop_price, false⟩ path with
      | some r => r
      | none => (path.length - 1, ((path.map TrailDay.close).getLast?).getD 0)
    let exit_tick := get_tick_size sel.2
    let real_exit_price := sel.2 - exit_tick
    some ⟨sel.1, sel.2, calculate_net_pnl real_buy_price real_exit_price⟩

/-- Single-day stop-exit rule of run_god_backtest (grok_back_final.py lines
146-154): when low <= current_stop the position exits, at the close when the
day's high is also below the stop (gap-down), otherwise at the stop. -/
def grokDayExit (high low close current_stop : ℚ) : Option ℚ :=
  if low ≤ current_stop then
    some (if high < current_stop then close else current_stop)
  else none

/-- A trade candidate handed to the portfolio simulators: entry/exit calendar
dates and the net return of the trade (`pnl` in the dicts built by
generate_trade_candidates). -/
structure Cand where
  entry_date : ℤ
  exit_date : ℤ
  pnl : ℚ
deriving Repr, DecidableEq

/-- An open position of run_capital_simulation_limited (backtest_engine_v2.py
line 202): exit date, cash returned at release, and committed cost. -/
structure PositionV2 where
  exit_date : ℤ
  return_cash : ℚ
  cost : ℚ
deriving Repr, DecidableEq

/-- An executed-trade record: the admitted candidate with its committed cost
and cash profit. -/
structure ExecTrade where
  cand : Cand
  cost : ℚ
  profit : ℚ
deriving Repr, DecidableEq

/-- Replay state of run_capital_simulation_limited: current cash, open
positions in insertion order, executed trades in admission order. -/
structure StateV2 where
  cash : ℚ
  positions : List PositionV2
  executed : List ExecTrade
deriving Repr, DecidableEq

/-- Stable insertion of a candidate into a list sorted by entry date: the new
element goes before the first strictly later entry date, hence after all
candidates with the same entry date that were already in the list. -/
def insertByEntry (t : Cand) : List Cand → List Cand
  | [] => [t]
  | u :: us =>
    if t.entry_date ≤ u.entry_date then t :: u :: us
    else u :: insertByEntry t us

/-- Stable sort by entry date, the effect of Python's
`candidates.sort(key=lambda x: x.entry_date)` (Timsort is stable, and a stable
sort by a total preorder is unique as a function of the input list). -/
def sortByEntry : List Cand → List Cand
  | [] => []
  | t :: ts => insertByEntry t (sortByEntry ts)

/-- Fund release of run_capital_simulation_limited (backtest_engine_v2.py
lines 207-214): positions whose exit_date is at or before the current entry
date return their cash; the rest stay open in order. -/
def releaseV2 (today : ℤ) (st : StateV2) : StateV2 :=
  ⟨st.cash + ((st.positions.filter
        (fun p => decide (p.exit_date ≤ today))).map PositionV2.return_cash).sum,
   st.positions.filter (fun p => !decide (p.exit_date ≤ today)),
   st.executed⟩

/-- Equity used for sizing (backtest_engine_v2.py line 217): cash plus the
committed cost of the open positions. -/
def equityV2 (st : StateV2) : ℚ :=
  st.cash + (st.positions.map PositionV2.cost).sum

/-- One candidate step of run_capital_simulation_limited (backtest_engine_v2.py
lines 204-238): release funds, size the position at 10% of current equity,
admit when the slot count is below MAX_POSITIONS and cash covers the size. -/
def stepV2 (st : StateV2) (t : Cand) : StateV2 :=
  let st1 := releaseV2 t.entry_date st
  let position_size := equityV2 st1 * POSITION_SIZE_PCT
  if st1.positions.length < MAX_POSITIONS ∧ position_size ≤ st1.cash then
    ⟨st1.cash - position_size,
     st1.positions ++ [⟨t.exit_date, position_size + position_size * t.pnl,
       position_size⟩],
     st1.executed ++ [⟨t, position_size, position_size * t.pnl⟩]⟩
  else st1

/-- Initial replay state: INITIAL_CAPITAL in cash, nothing open or executed. -/
def initStateV2 : StateV2 := ⟨INITIAL_CAPITAL, [], []⟩

/-- run_capital_simulation_limited (backtest_engine_v2.py lines 189-240):
sort by entry date, replay every candidate, return the executed trades. -/
def run_capital_simulation_limited (cs : List Cand) : List ExecTrade :=
  ((sortByEntry cs).foldl stepV2 initStateV2).executed

/-- All intermediate replay states of run_capital_simulation_limited,
including the initial one. -/
def statesV2 (cs : List Cand) : List StateV2 :=
  (sortByEntry cs).scanl stepV2 initStateV2

/-- An open position of run_capital_simulation in backtest_patterns.py
(line 244): only the exit date and the cash returned at release. -/
structure PositionP where
  exit_date : ℤ
  return_cash : ℚ
deriving Repr, DecidableEq

/-- Replay state of run_capital_simulation (backtest_patterns.py, limited
mode). -/
structure StateP where
  cash : ℚ
  positions : List PositionP
  executed : List ExecTrade
deriving Repr, DecidableEq

/-- Fixed position size of run_capital_simulation (backtest_patterns.py line
243): INITIAL_CAPITAL * POSITION_SIZE_PCT, set once before the replay. -/
def positionSizeP : ℚ := INITIAL_CAPITAL * POSITION_SIZE_PCT

/-- One candidate step of run_capital_simulation limited mode
(backtest_patterns.py lines 246-278): funds release only for positions with
exit_date strictly before the current entry date, fixed position size. -/
def stepP (st : StateP) (t : Cand) : StateP :=
  let st1 : StateP :=
    ⟨st.cash + ((st.positions.filter
          (fun p => decide (p.exit_date < t.entry_date))).map
        PositionP.return_cash).sum,
     st.positions.filter (fun p => !decide (p.exit_date < t.entry_date)),
     st.executed⟩
  if st1.positions.length < MAX_POSITIONS ∧ positionSizeP ≤ st1.cash then
    ⟨st1.cash - positionSizeP,
     st1.positions ++ [⟨t.exit_date, positionSizeP + positionSizeP * t.pnl⟩],
     st1.executed ++ [⟨t, positionSizeP, positionSizeP * t.pnl⟩]⟩
  else st1

/-- run_capital_simulation, limited mode (backtest_patterns.py lines 222-280):
sort by entry date, replay with fixed sizing and strict release. -/
def run_capital_simulation (cs : List Cand) : List ExecTrade :=
  ((sortByEntry cs).foldl stepP ⟨INITIAL_CAPITAL, [], []⟩).executed

/-- An executed-trade record as consumed by calculate_metrics: entry date,
exit date and cash profit. -/
structure ExecutedRec where
  entry_date : ℤ
  exit_date : ℤ
  profit : ℚ
deriving Repr, DecidableEq

/-- Inclusive integer range, the embedding of `pd.date_range(min, max)` with
calendar days numbered by integers. -/
def intRange (a b : ℤ) : List ℤ :=
  (List.range (b - a + 1).toNat).map (fun i => a + i)

/-- Profit booked on one day: `df.groupby(exit_date)[profit].sum()` read off
at that day, 0 on days with no exits. -/
def dailyPnl (trades : List ExecutedRec) (day : ℤ) : ℚ :=
  ((trades.filter (fun t => decide (t.exit_date = day))).map
    ExecutedRec.profit).sum

/-- Running sum in the style of pandas `cumsum` (same length as the input). -/
def cumsum (l : List ℚ) : List ℚ := (l.scanl (· + ·) 0).tail

/-- Equity curve of calculate_metrics (backtest_patterns.py lines 293-308,
backtest_engine_v2.py lines 252-269): daily pnl over the calendar range from
the earliest entry to the latest exit, cumulated, plus INITIAL_CAPITAL. -/
def equityCurve (trades : List ExecutedRec) : List ℚ :=
  let lo := ((trades.map ExecutedRec.entry_date).min?).getD 0
  let hi := ((trades.map ExecutedRec.exit_date).max?).getD 0
  (cumsum ((intRange lo hi).map (dailyPnl trades))).map
    (fun x => x + INITIAL_CAPITAL)

/-- Daily percentage changes: `equity.pct_change().fillna(0)` — the first
element becomes 0, the rest are cur/prev - 1. -/
def pctChanges : List ℚ → List ℚ
  | [] => []
  | x :: xs => 0 :: List.zipWith (fun prev cur => cur / prev - 1) (x :: xs) xs

/-- Daily return series of calculate_metrics. -/
def dailyReturns (trades : List ExecutedRec) : List ℚ :=
  pctChanges (equityCurve trades)

/-- Arithmetic mean of a list of rationals (pandas `mean`). -/
def meanQ (l : List ℚ) : ℚ := l.sum / l.length

/-- Sample variance with ddof = 1 (the square of pandas `std`), defined for
lists of length at least 2; 0 otherwise (the undefined case is branched on
separately, see `sharpe`). -/
def varQ (l : List ℚ) : ℚ :=
  if 2 ≤ l.length then
    ((l.map (fun x => (x - meanQ l) ^ 2)).sum) / ((l.length : ℚ) - 1)
  else 0

/-- Daily risk-free rate RISK_FREE_RATE / 252. -/
def riskFreeDaily : ℚ := RISK_FREE_RATE / 252

/-- Sharpe ratio of calculate_metrics (backtest_engine_v2.py lines 276-279):
`(daily_ret.mean() - rf/252) / daily_ret.std() * sqrt(252) if std > 0 else 0`,
with std = sqrt of the ddof-1 sample variance. `std > 0` holds exactly when
the variance is defined (length >= 2; for shorter series pandas yields NaN,
and NaN > 0 is false) and positive, so the guard is `2 ≤ length ∧ 0 < varQ`. -/
noncomputable def sharpe (l : List ℚ) : ℝ :=
  if 2 ≤ l.length ∧ 0 < varQ l then
    ((meanQ l - riskFreeDaily : ℚ) : ℝ) / Real.sqrt (varQ l) * Real.sqrt 252
  else 0

/-- Sharpe ratio of calculate_metrics in backtest_patterns.py (lines 316-322):
`if std == 0: sharpe = 0 else: sharpe = (mean - rf/252) / std * sqrt(252)`.
For a series shorter than 2 the sample std is NaN, the `std == 0` guard is
false, and the computed Sharpe is NaN — modelled as `none`. For longer series
the result is a number: 0 when the variance is 0, else the formula. -/
noncomputable def sharpePatterns (l : List ℚ) : Option ℝ :=
  if 2 ≤ l.length then
    some (if varQ l = 0 then 0
      else ((meanQ l - riskFreeDaily : ℚ) : ℝ) / Real.sqrt (varQ l) *
        Real.sqrt 252)
  else none

/-- Candidate list with a same-day round-trip: ten candidates entering day 1
and exiting day 5, and one candidate entering on day 5, the very day the
first ten exit. -/
def exC3 : List Cand := List.replicate 10 (⟨1, 5, 0⟩ : Cand) ++ [⟨5, 6, 0⟩]

/-- Two non-overlapping candidates: the first earns 5% and exits before the
second enters. -/
def exC2 : List Cand := [⟨1, 2, 1/20⟩, ⟨3, 4, 0⟩]

/-- High series whose first touch of the buy price 100 is 41 trading days
after the signal at index 0 — outside every 30-day window. -/
def hsC6 : List ℚ := 5 :: (List.replicate 40 5 ++ [200])

/-- One executed trade whose profit makes the mean daily return equal the
daily risk-free rate exactly while the return series has positive variance. -/
def exC9 : List ExecutedRec := [⟨0, 1, 10000/63⟩]

/-- One same-day round-trip trade: its equity curve covers a single calendar
day, so the daily return series has length 1 and no sample std. -/
def exC9b : List ExecutedRec := [⟨0, 0, 100⟩]

/-- States along a scanl all satisfy an invariant preserved by the step
function for elements of the list. -/
theorem scanl_preserves {σ α : Type} (f : σ → α → σ) (P : σ → Prop) :
    ∀ (l : List α) (s : σ), P s → (∀ s' a, a ∈ l → P s' → P (f s' a)) →
      ∀ x ∈ List.scanl f s l, P x := by
  intro l
  induction l with
  | nil =>
    intro s hs _ x hx
    simp only [List.scanl_nil, List.mem_singleton] at hx
    exact hx ▸ hs
  | cons a l ih =>
    intro s hs hstep x hx
    rw [List.scanl_cons] at hx
    rcases List.mem_append.mp hx with h1 | h2
    · simp only [List.mem_singleton] at h1
      exact h1 ▸ hs
    · exact ih (f s a) (hstep s a (List.mem_cons_self a l) hs)
        (fun s' b hb hs' => hstep s' b (List.mem_cons_of_mem a hb) hs') x h2

/-- Membership is preserved by stable insertion. -/
theorem mem_insertByEntry {x t : Cand} : ∀ {l : List Cand},
    x ∈ insertByEntry t l ↔ x = t ∨ x ∈ l := by
  intro l
  induction l with
  | nil => simp [insertByEntry]
  | cons u us ih =>
    by_cases h : t.entry_date ≤ u.entry_date
    · simp [insertByEntry, h]
    · simp only [insertByEntry, if_neg h, List.mem_cons, ih]
      tauto

/-- Sorting by entry date neither adds nor removes candidates. -/
theorem mem_sortByEntry {x : Cand} : ∀ {l : List Cand},
    x ∈ sortByEntry l ↔ x ∈ l := by
  intro l
  induction l with
  | nil => simp [sortByEntry]
  | cons t ts ih =>
    simp only [sortByEntry, mem_insertByEntry, ih, List.mem_cons]

/-- Releasing funds only removes positions from the open list. -/
theorem releaseV2_positions_length_le (today : ℤ) (st : StateV2) :
    (releaseV2 today st).positions.length ≤ st.positions.length :=
  List.length_filter_le _ _

/-- Releasing funds does not touch the executed-trade list. -/
theorem releaseV2_executed (today : ℤ) (st : StateV2) :
    (releaseV2 today st).executed = st.executed := rfl

/-- The slot-count bound is preserved by one replay step. -/
theorem stepV2_length_le (st : StateV2) (t : Cand)
    (h : st.positions.length ≤ MAX_POSITIONS) :
    (stepV2 st t).positions.length ≤ MAX_POSITIONS := by
  unfold stepV2
  set st1 := releaseV2 t.entry_date st with hst1
  by_cases hc : st1.positions.length < MAX_POSITIONS ∧
      equityV2 st1 * POSITION_SIZE_PCT ≤ st1.cash
  · rw [if_pos hc]
    simpa using Nat.succ_le_of_lt hc.1
  · rw [if_neg hc]
    exact le_trans (releaseV2_positions_length_le t.entry_date st) h

/-- The sample variance is never negative. -/
theorem varQ_nonneg (l : List ℚ) : 0 ≤ varQ l := by
  unfold varQ
  by_cases h : 2 ≤ l.length
  · rw [if_pos h]
    apply div_nonneg
    · apply List.sum_nonneg
      intro x hx
      rcases List.mem_map.mp hx with ⟨y, _, rfl⟩
      exact sq_nonneg _
    · have : (2 : ℚ) ≤ l.length := by exact_mod_cast h
      linarith
  · rw [if_neg h]

/-- C1: under the Fixed exit policy, on a day whose low touches the stop and
whose high touches the target (entry 100, stop 95; with slippage the v2 target
is 223/2, without it the patterns target is 110), both cited implementations
resolve the tie to the TARGET: simulate_exit_fixed returns raw exit price
223/2 rather than the stop 95, and the patterns fixed-exit logic returns the
target pnl 1/10 rather than the stop pnl -1/20. This refutes the claimed
stop-wins tie-break on the code as written. -/
theorem c1_fixed_tie_resolves_to_target :
    (simulate_exit_fixed [112] [94] [100] 0 100 95 2 20).map
        SimResult.raw_exit_price = some (223/2)
    ∧ (223 : ℚ)/2 ≠ 95
    ∧ patternsFixedExit [111] [94] [100] 0 100 95 2 (some 20) = (0, 1/10)
    ∧ (1 : ℚ)/10 ≠ (95 - 100)/100 := by
  refine ⟨?_, by norm_num, ?_, by norm_num⟩
  · norm_num [simulate_exit_fixed, get_tick_size, calculate_net_pnl,
      FEE_RATE, TAX_RATE, List.findIdx?]
  · norm_num [patternsFixedExit, List.findIdx?]

/-- C3: the two capital-release tie-breaks in the source are observably
different. On exC3 — ten positions filling every slot until day 5 plus one
candidate entering on day 5 — run_capital_simulation_limited (release when
exit_date ≤ entry_date) admits the same-day round-trip for 11 trades, while
run_capital_simulation (release only when exit_date < entry_date) drops it,
admitting 10. -/
theorem c3_release_rules_not_equivalent :
    (run_capital_simulation_limited exC3).map ExecTrade.cand ≠
        (run_capital_simulation exC3).map ExecTrade.cand
    ∧ (run_capital_simulation_limited exC3).length = 11
    ∧ (run_capital_simulation exC3).length = 10
    ∧ (⟨1, 5, 0⟩ : Cand).exit_date = (⟨5, 6, 0⟩ : Cand).entry_date := by
  have h1 : (run_capital_simulation_limited exC3).length = 11 := by
    norm_num [run_capital_simulation_limited, exC3, sortByEntry, insertByEntry,
      initStateV2, stepV2, releaseV2, equityV2, INITIAL_CAPITAL, MAX_POSITIONS,
      POSITION_SIZE_PCT, List.replicate]
  have h2 : (run_capital_simulation exC3).length = 10 := by
    norm_num [run_capital_simulation, exC3, sortByEntry, insertByEntry,
      stepP, positionSizeP, INITIAL_CAPITAL, MAX_POSITIONS,
      POSITION_SIZE_PCT, List.replicate]
  refine ⟨?_, h1, h2, rfl⟩
  intro h
  have hlen := congrArg List.length h
  simp only [List.length_map, h1, h2] at hlen
  exact absurd hlen (by norm_num)

/-- C6: on a series whose first touch of the buy price comes 41 trading days
after the signal, the entry scan of generate_trade_candidates (bounded to the
30 days after the signal) produces no candidate, while the entry scan of
generate_labels (prepare_ml_data.py) — despite its own "within 30 days"
comment — resolves an entry at index 41. -/
theorem c6_entry_window_divergence :
    patternsEntryIdx hsC6 0 100 = none
    ∧ labelsEntryIdx hsC6 0 100 = some 41
    ∧ hsC6.length = 42 := by
  refine ⟨?_, ?_, by norm_num [hsC6]⟩
  · norm_num [patternsEntryIdx, hsC6, List.replicate, List.findIdx?]
  · norm_num [labelsEntryIdx, hsC6, List.replicate, List.findIdx?]

/-- C4 counterexample: a gap-down day (high 90 and low 85 both below the
current stop 95, close 88). The claim says the trade exits at the close 88;
simulate_exit_trailing exits at the stop 95. -/
theorem c4_counterexample_gap_down :
    (simulate_exit_trailing [90] [85] [88] [none] 0 99 95 (3/2)).map
        SimResult.raw_exit_price = some 95
    ∧ (95 : ℚ) ≠ 88 := by
  refine ⟨?_, by norm_num⟩
  norm_num [simulate_exit_trailing, trailStopHitV2, trailUpdV2, get_tick_size,
    calculate_net_pnl, FEE_RATE, TAX_RATE]

/-- C2 counterexample: on exC2 the cited run_capital_simulation of
backtest_patterns.py sizes both trades at the fixed positionSizeP =
INITIAL_CAPITAL * POSITION_SIZE_PCT = 100000, even though at the second
candidate the portfolio's total equity is 1005000, so total_equity *
POSITION_SIZE_PCT = 100500 there — as run_capital_simulation_limited of
backtest_engine_v2.py indeed records. Sizing does not compound in the
patterns variant. -/
theorem c2_counterexample_fixed_sizing :
    (run_capital_simulation exC2).map ExecTrade.cost =
        [positionSizeP, positionSizeP]
    ∧ positionSizeP = INITIAL_CAPITAL * POSITION_SIZE_PCT
    ∧ (run_capital_simulation_limited exC2).map ExecTrade.cost =
        [100000, 100500]
    ∧ (100500 : ℚ) = 1005000 * POSITION_SIZE_PCT
    ∧ positionSizeP ≠ 1005000 * POSITION_SIZE_PCT := by
  refine ⟨?_, rfl, ?_,
    by norm_num [POSITION_SIZE_PCT],
    by norm_num [positionSizeP, INITIAL_CAPITAL, POSITION_SIZE_PCT]⟩
  · norm_num [run_capital_simulation, exC2, sortByEntry, insertByEntry,
      stepP, positionSizeP, INITIAL_CAPITAL, MAX_POSITIONS, POSITION_SIZE_PCT]
  · norm_num [run_capital_simulation_limited, exC2, sortByEntry, insertByEntry,
      initStateV2, stepV2, releaseV2, equityV2, INITIAL_CAPITAL, MAX_POSITIONS,
      POSITION_SIZE_PCT]

/-- One patterns replay step either drops the candidate (executed list
unchanged) or appends exactly one record costed at the fixed positionSizeP. -/
theorem stepP_executed_shape (st : StateP) (a : Cand) :
    (stepP st a).executed = st.executed ∨
    (stepP st a).executed =
      st.executed ++ [⟨a, positionSizeP, positionSizeP * a.pnl⟩] := by
  simp only [stepP]
  split
  · right; rfl
  · left; rfl

/-- Every record executed by a patterns replay from a state whose executed
records all cost positionSizeP again costs positionSizeP. -/
theorem foldlP_cost : ∀ (l : List Cand) (st : StateP),
    (∀ e ∈ st.executed, e.cost = positionSizeP) →
    ∀ e ∈ (l.foldl stepP st).executed, e.cost = positionSizeP := by
  intro l
  induction l with
  | nil => intro st h; simpa using h
  | cons a l ih =>
    intro st h
    rw [List.foldl_cons]
    apply ih
    intro e he
    rcases stepP_executed_shape st a with hs | hs
    · rw [hs] at he
      exact h e he
    · rw [hs] at he
      rcases List.mem_append.mp he with h1 | h2
      · exact h e h1
      · simp only [List.mem_singleton] at h2
        subst h2
        rfl

/-- C5: the v2 portfolio replay never holds more than MAX_POSITIONS open
positions at any intermediate state, for every candidate list; a candidate is
admitted (one executed record appended) exactly when, after the capital
release, the open-position count is below MAX_POSITIONS and cash covers the
position size; otherwise the step leaves the state exactly as the release left
it, so a dropped candidate does not affect later ones. -/
theorem c5_slot_cap_and_admission :
    (∀ (cs : List Cand), ∀ st ∈ statesV2 cs,
        st.positions.length ≤ MAX_POSITIONS)
    ∧ (∀ (st : StateV2) (t : Cand),
        (stepV2 st t).executed.length = st.executed.length + 1 ↔
          ((releaseV2 t.entry_date st).positions.length < MAX_POSITIONS ∧
           equityV2 (releaseV2 t.entry_date st) * POSITION_SIZE_PCT ≤
             (releaseV2 t.entry_date st).cash))
    ∧ (∀ (st : StateV2) (t : Cand),
        ¬((releaseV2 t.entry_date st).positions.length < MAX_POSITIONS ∧
          equityV2 (releaseV2 t.entry_date st) * POSITION_SIZE_PCT ≤
            (releaseV2 t.entry_date st).cash) →
        stepV2 st t = releaseV2 t.entry_date st) := by
  refine ⟨?_, ?_, ?_⟩
  · intro cs st hst
    exact scanl_preserves stepV2 (fun s => s.positions.length ≤ MAX_POSITIONS)
      (sortByEntry cs) initStateV2 (Nat.zero_le _)
      (fun s a _ h => stepV2_length_le s a h) st hst
  · intro st t
    by_cases hc : (releaseV2 t.entry_date st).positions.length < MAX_POSITIONS ∧
        equityV2 (releaseV2 t.entry_date st) * POSITION_SIZE_PCT ≤
          (releaseV2 t.entry_date st).cash
    · simp only [stepV2, if_pos hc]
      simp only [List.length_append, releaseV2_executed, List.length_singleton]
      exact iff_of_true trivial hc
    · simp only [stepV2, if_neg hc]
      rw [releaseV2_executed]
      exact iff_of_false (by omega) hc
  · intro st t hc
    simp only [stepV2, if_neg hc]

/-- Witness for c5_slot_cap_and_admission at concrete inputs. -/
theorem c5_slot_cap_and_admission_witness :
    initStateV2.positions.length ≤ MAX_POSITIONS
    ∧ stepV2 ⟨-1, [], []⟩ ⟨0, 0, 0⟩ = releaseV2 0 ⟨-1, [], []⟩ := by
  constructor
  · exact c5_slot_cap_and_admission.1 [] initStateV2 (by simp [statesV2, sortByEntry])
  · refine c5_slot_cap_and_admission.2.2 ⟨-1, [], []⟩ ⟨0, 0, 0⟩ ?_
    intro hc
    have := hc.2
    norm_num [releaseV2, equityV2, POSITION_SIZE_PCT] at this

/-- C10: when every candidate's net return is at least -1 (a trade cannot lose
more than its committed capital), cash is non-negative at every intermediate
state of the limited-capital replay. -/
theorem c10_cash_never_negative :
    ∀ (cs : List Cand), (∀ t ∈ cs, -1 ≤ t.pnl) →
      ∀ st ∈ statesV2 cs, 0 ≤ st.cash := by
  intro cs hpnl st hst
  have h := scanl_preserves stepV2
    (fun s => 0 ≤ s.cash ∧ ∀ p ∈ s.positions, 0 ≤ p.cost ∧ 0 ≤ p.return_cash)
    (sortByEntry cs) initStateV2
    (by
      refine ⟨by norm_num [initStateV2, INITIAL_CAPITAL], ?_⟩
      intro p hp
      simp [initStateV2] at hp)
    (fun s a ha hs => by
      have hapnl : -1 ≤ a.pnl := hpnl a (mem_sortByEntry.mp ha)
      have hrel : 0 ≤ (releaseV2 a.entry_date s).cash ∧
          ∀ p ∈ (releaseV2 a.entry_date s).positions,
            0 ≤ p.cost ∧ 0 ≤ p.return_cash := by
        constructor
        · refine add_nonneg hs.1 (List.sum_nonneg ?_)
          intro x hx
          rcases List.mem_map.mp hx with ⟨p, hp, rfl⟩
          exact (hs.2 p (List.mem_of_mem_filter hp)).2
        · intro p hp
          exact hs.2 p (List.mem_of_mem_filter hp)
      have hsize : 0 ≤ equityV2 (releaseV2 a.entry_date s) * POSITION_SIZE_PCT := by
        apply mul_nonneg
        · refine add_nonneg hrel.1 (List.sum_nonneg ?_)
          intro x hx
          rcases List.mem_map.mp hx with ⟨p, hp, rfl⟩
          exact (hrel.2 p hp).1
        · norm_num [POSITION_SIZE_PCT]
      by_cases hc : (releaseV2 a.entry_date s).positions.length < MAX_POSITIONS ∧
          equityV2 (releaseV2 a.entry_date s) * POSITION_SIZE_PCT ≤
            (releaseV2 a.entry_date s).cash
      · simp only [stepV2, if_pos hc]
        refine ⟨by linarith [hc.2], ?_⟩
        intro p hp
        rcases List.mem_append.mp hp with h1 | h2
        · exact hrel.2 p h1
        · simp only [List.mem_singleton] at h2
          subst h2
          refine ⟨hsize, ?_⟩
          have hfac : equityV2 (releaseV2 a.entry_date s) * POSITION_SIZE_PCT +
              equityV2 (releaseV2 a.entry_date s) * POSITION_SIZE_PCT * a.pnl =
              equityV2 (releaseV2 a.entry_date s) * POSITION_SIZE_PCT * (1 + a.pnl) := by
            ring
          rw [hfac]
          exact mul_nonneg hsize (by linarith)
      · simp only [stepV2, if_neg hc]
        exact hrel)
    st hst
  exact h.1

/-- Witness for c10_cash_never_negative at a concrete candidate list. -/
theorem c10_cash_never_negative_witness : 0 ≤ initStateV2.cash :=
  c10_cash_never_negative exC2
    (by intro t ht; fin_cases ht <;> norm_num)
    initStateV2 (by simp [statesV2, List.scanl_cons])

/-- C2 (amended): run_capital_simulation_limited of backtest_engine_v2.py
sizes every admitted candidate at total-equity-after-release times
POSITION_SIZE_PCT — sizing compounds with portfolio growth — whereas
run_capital_simulation of backtest_patterns.py (limited mode) costs every
executed trade at the fixed INITIAL_CAPITAL * POSITION_SIZE_PCT. -/
theorem c2_v2_sizing_compounds_patterns_fixed :
    (∀ (st : StateV2) (t : Cand),
        ((releaseV2 t.entry_date st).positions.length < MAX_POSITIONS ∧
         equityV2 (releaseV2 t.entry_date st) * POSITION_SIZE_PCT ≤
           (releaseV2 t.entry_date st).cash) →
        (stepV2 st t).executed = st.executed ++
          [⟨t, equityV2 (releaseV2 t.entry_date st) * POSITION_SIZE_PCT,
            equityV2 (releaseV2 t.entry_date st) * POSITION_SIZE_PCT * t.pnl⟩])
    ∧ (∀ (cs : List Cand), ∀ e ∈ run_capital_simulation cs,
        e.cost = INITIAL_CAPITAL * POSITION_SIZE_PCT) := by
  constructor
  · intro st t hc
    simp only [stepV2, if_pos hc]
    rfl
  · intro cs e he
    exact foldlP_cost (sortByEntry cs) ⟨INITIAL_CAPITAL, [], []⟩
      (by intro e' he'; simp at he') e he

/-- Witness for c2_v2_sizing_compounds_patterns_fixed at concrete inputs. -/
theorem c2_v2_sizing_witness :
    (stepV2 initStateV2 ⟨1, 2, 0⟩).executed = initStateV2.executed ++
      [⟨⟨1, 2, 0⟩, equityV2 (releaseV2 1 initStateV2) * POSITION_SIZE_PCT,
        equityV2 (releaseV2 1 initStateV2) * POSITION_SIZE_PCT * (0 : ℚ)⟩]
    ∧ (⟨⟨1, 2, 1/20⟩, 100000, 5000⟩ : ExecTrade).cost =
        INITIAL_CAPITAL * POSITION_SIZE_PCT := by
  constructor
  · exact c2_v2_sizing_compounds_patterns_fixed.1 initStateV2 ⟨1, 2, 0⟩
      (by
        constructor
        · norm_num [releaseV2, initStateV2, MAX_POSITIONS]
        · norm_num [releaseV2, equityV2, initStateV2, INITIAL_CAPITAL,
            POSITION_SIZE_PCT])
  · refine c2_v2_sizing_compounds_patterns_fixed.2 exC2
      ⟨⟨1, 2, 1/20⟩, 100000, 5000⟩ ?_
    have : (run_capital_simulation exC2).map ExecTrade.cost =
        [positionSizeP, positionSizeP] := by
      norm_num [run_capital_simulation, exC2, sortByEntry, insertByEntry,
        stepP, positionSizeP, INITIAL_CAPITAL, MAX_POSITIONS, POSITION_SIZE_PCT]
    norm_num [run_capital_simulation, exC2, sortByEntry, insertByEntry,
      stepP, positionSizeP, INITIAL_CAPITAL, MAX_POSITIONS, POSITION_SIZE_PCT]

/-- C4 (amended): in both trailing implementations — the stop-hit scan of
simulate_exit_trailing (backtest_engine_v2.py) and the ladder stop-hit scan of
generate_trade_candidates (backtest_patterns.py) — a day whose low is at or
below the current stop always exits at the current stop of the hit day: the
price returned is exactly the stop value the walk carried into that day, with
no gap-down special case. The exit-at-close-on-gap-down rule holds only in the
archived run_god_backtest (grokDayExit): when low ≤ stop and also high < stop
it exits at the close. -/
theorem c4_v2_exits_at_stop_grok_at_close :
    (∀ (rb trig : ℚ) (st : TrailSt) (days : List TrailDay) (k : ℕ) (p : ℚ),
        trailStopHitV2 rb trig st days = some (k, p) →
        p = ((List.scanl (trailUpdV2 rb trig) st days).map
            TrailSt.current_stop).getD k 0)
    ∧ (∀ (buy risk trigger_r trigger_price : ℚ) (st : TrailSt)
        (days : List TrailDay) (k : ℕ) (p : ℚ),
        trailStopHitLadder buy risk trigger_r trigger_price st days =
            some (k, p) →
        p = ((List.scanl (trailUpdLadder buy risk trigger_r trigger_price)
            st days).map TrailSt.current_stop).getD k 0)
    ∧ (∀ hi lo cl s : ℚ, lo ≤ s → hi < s → grokDayExit hi lo cl s = some cl) := by
  refine ⟨?_, ?_, ?_⟩
  · intro rb trig st days
    induction days generalizing st with
    | nil =>
      intro k p h
      simp [trailStopHitV2] at h
    | cons d rest ih =>
      intro k p h
      simp only [trailStopHitV2] at h
      by_cases hl : d.low ≤ st.current_stop
      · rw [if_pos hl] at h
        simp only [Option.some.injEq, Prod.mk.injEq] at h
        obtain ⟨hk, hp⟩ := h
        subst hk
        subst hp
        simp [List.scanl_cons]
      · rw [if_neg hl] at h
        cases hrec : trailStopHitV2 rb trig (trailUpdV2 rb trig st d) rest with
        | none =>
          rw [hrec] at h
          simp at h
        | some r =>
          rw [hrec] at h
          simp only [Option.map_some', Option.some.injEq, Prod.mk.injEq] at h
          obtain ⟨hk, hp⟩ := h
          subst hk
          subst hp
          rw [List.scanl_cons]
          simpa using ih (trailUpdV2 rb trig st d) r.1 r.2
            (by rw [hrec])
  · intro buy risk trigger_r trigger_price st days
    induction days generalizing st with
    | nil =>
      intro k p h
      simp [trailStopHitLadder] at h
    | cons d rest ih =>
      intro k p h
      simp only [trailStopHitLadder] at h
      by_cases hl : d.low ≤ st.current_stop
      · rw [if_pos hl] at h
        simp only [Option.some.injEq, Prod.mk.injEq] at h
        obtain ⟨hk, hp⟩ := h
        subst hk
        subst hp
        simp [List.scanl_cons]
      · rw [if_neg hl] at h
        cases hrec : trailStopHitLadder buy risk trigger_r trigger_price
            (trailUpdLadder buy risk trigger_r trigger_price st d) rest with
        | none =>
          rw [hrec] at h
          simp at h
        | some r =>
          rw [hrec] at h
          simp only [Option.map_some', Option.some.injEq, Prod.mk.injEq] at h
          obtain ⟨hk, hp⟩ := h
          subst hk
          subst hp
          rw [List.scanl_cons]
          simpa using ih (trailUpdLadder buy risk trigger_r trigger_price st d)
            r.1 r.2 (by rw [hrec])
  · intro hi lo cl s hle hlt
    simp [grokDayExit, hle, hlt]

/-- Witness for c4_v2_exits_at_stop_grok_at_close at concrete inputs. -/
theorem c4_v2_exits_at_stop_witness :
    (95 : ℚ) = ((List.scanl (trailUpdV2 100 110) ⟨95, false⟩
        [⟨90, 85, 88, none⟩]).map TrailSt.current_stop).getD 0 0
    ∧ (95 : ℚ) = ((List.scanl (trailUpdLadder 100 5 2 110) ⟨95, false⟩
        [⟨90, 85, 88, none⟩]).map TrailSt.current_stop).getD 0 0
    ∧ grokDayExit 90 85 88 95 = some 88 := by
  refine ⟨?_, ?_, ?_⟩
  · exact c4_v2_exits_at_stop_grok_at_close.1 100 110 ⟨95, false⟩
      [⟨90, 85, 88, none⟩] 0 95 (by norm_num [trailStopHitV2])
  · exact c4_v2_exits_at_stop_grok_at_close.2.1 100 5 2 110 ⟨95, false⟩
      [⟨90, 85, 88, none⟩] 0 95 (by norm_num [trailStopHitLadder])
  · exact c4_v2_exits_at_stop_grok_at_close.2.2 90 85 88 95 (by norm_num)
      (by norm_num)

/-- A scanl always starts with its initial state. -/
theorem scanl_head {σ α : Type} (f : σ → α → σ) (b : σ) (l : List α) :
    ∃ t, List.scanl f b l = b :: t := by
  cases l with
  | nil => exact ⟨[], by simp⟩
  | cons a l =>
    refine ⟨List.scanl f (f b a) l, ?_⟩
    rw [List.scanl_cons]
    rfl

/-- The projections of the states along a scanl form an ascending chain when
each step preserves an invariant and raises the projection under it. -/
theorem scanl_map_chain' {σ α : Type} (f : σ → α → σ) (g : σ → ℚ)
    (P : σ → Prop) (hP : ∀ s a, P s → P (f s a))
    (hg : ∀ s a, P s → g s ≤ g (f s a)) :
    ∀ (l : List α) (s : σ), P s →
      ((List.scanl f s l).map g).Chain' (· ≤ ·) := by
  intro l
  induction l with
  | nil =>
    intro s _
    simp
  | cons a rest ih =>
    intro s hs
    rw [List.scanl_cons]
    obtain ⟨t, ht⟩ := scanl_head f (f s a) rest
    rw [List.singleton_append, ht, List.map_cons, List.map_cons,
      List.chain'_cons]
    constructor
    · exact hg s a hs
    · have hch := ih (f s a) (hP s a hs)
      rw [ht, List.map_cons] at hch
      exact hch

/-- One v2 trailing update keeps the invariant "while inactive the stop is at
most breakeven" and never lowers the current stop. -/
theorem trailUpdV2_inv_mono (rb trig : ℚ) (st : TrailSt) (d : TrailDay)
    (h : st.trailing_active = false → st.current_stop ≤ rb) :
    ((trailUpdV2 rb trig st d).trailing_active = false →
        (trailUpdV2 rb trig st d).current_stop ≤ rb)
    ∧ st.current_stop ≤ (trailUpdV2 rb trig st d).current_stop := by
  cases ha : st.trailing_active with
  | true =>
    cases hma : d.ma with
    | some m =>
      have hres : trailUpdV2 rb trig st d = ⟨max st.current_stop m, true⟩ := by
        simp [trailUpdV2, ha, hma]
      rw [hres]
      exact ⟨by simp, le_max_left _ _⟩
    | none =>
      have hres : trailUpdV2 rb trig st d = st := by
        simp [trailUpdV2, ha, hma]
      rw [hres]
      refine ⟨fun hfalse => ?_, le_refl _⟩
      rw [ha] at hfalse
      exact absurd hfalse (by simp)
  | false =>
    by_cases htr : trig ≤ d.high
    · have hle : st.current_stop ≤ rb := h ha
      cases hma : d.ma with
      | some m =>
        have hres : trailUpdV2 rb trig st d = ⟨max rb m, true⟩ := by
          simp [trailUpdV2, ha, hma, htr]
        rw [hres]
        exact ⟨by simp, le_trans hle (le_max_left _ _)⟩
      | none =>
        have hres : trailUpdV2 rb trig st d = ⟨rb, true⟩ := by
          simp [trailUpdV2, ha, hma, htr]
        rw [hres]
        exact ⟨by simp, hle⟩
    · have hres : trailUpdV2 rb trig st d = st := by
        simp [trailUpdV2, ha, htr]
      rw [hres]
      exact ⟨fun _ => h ha, le_refl _⟩

/-- One ladder trailing update keeps the invariant "while inactive the stop is
at most the buy price" and never lowers the current stop. -/
theorem trailUpdLadder_inv_mono (buy risk trigger_r trigger_price : ℚ)
    (st : TrailSt) (d : TrailDay)
    (h : st.trailing_active = false → st.current_stop ≤ buy) :
    ((trailUpdLadder buy risk trigger_r trigger_price st d).trailing_active = false →
        (trailUpdLadder buy risk trigger_r trigger_price st d).current_stop ≤ buy)
    ∧ st.current_stop ≤
        (trailUpdLadder buy risk trigger_r trigger_price st d).current_stop := by
  cases ha : st.trailing_active with
  | true =>
    by_cases hlad : 0 < (d.high - buy) / risk - trigger_r
    · cases hma : d.ma with
      | some m =>
        have hres : trailUpdLadder buy risk trigger_r trigger_price st d =
            ⟨max (max st.current_stop
              (buy + (⌊(d.high - buy) / risk - trigger_r⌋ : ℚ) * risk)) m, true⟩ := by
          simp [trailUpdLadder, ha, hma, hlad]
        rw [hres]
        exact ⟨by simp, le_trans (le_max_left _ _) (le_max_left _ _)⟩
      | none =>
        have hres : trailUpdLadder buy risk trigger_r trigger_price st d =
            ⟨max st.current_stop
              (buy + (⌊(d.high - buy) / risk - trigger_r⌋ : ℚ) * risk), true⟩ := by
          simp [trailUpdLadder, ha, hma, hlad]
        rw [hres]
        exact ⟨by simp, le_max_left _ _⟩
    · cases hma : d.ma with
      | some m =>
        have hres : trailUpdLadder buy risk trigger_r trigger_price st d =
            ⟨max st.current_stop m, true⟩ := by
          simp [trailUpdLadder, ha, hma, hlad]
        rw [hres]
        exact ⟨by simp, le_max_left _ _⟩
      | none =>
        have hres : trailUpdLadder buy risk trigger_r trigger_price st d = st := by
          simp [trailUpdLadder, ha, hma, hlad]
        rw [hres]
        refine ⟨fun hfalse => ?_, le_refl _⟩
        rw [ha] at hfalse
        exact absurd hfalse (by simp)
  | false =>
    by_cases htr : trigger_price ≤ d.high
    · have hle : st.current_stop ≤ buy := h ha
      by_cases hlad : 0 < (d.high - buy) / risk - trigger_r
      · cases hma : d.ma with
        | some m =>
          have hres : trailUpdLadder buy risk trigger_r trigger_price st d =
              ⟨max (max buy
                (buy + (⌊(d.high - buy) / risk - trigger_r⌋ : ℚ) * risk)) m, true⟩ := by
            simp [trailUpdLadder, ha, hma, htr, hlad]
          rw [hres]
          exact ⟨by simp, le_trans hle
            (le_trans (le_max_left _ _) (le_max_left _ _))⟩
        | none =>
          have hres : trailUpdLadder buy risk trigger_r trigger_price st d =
              ⟨max buy
                (buy + (⌊(d.high - buy) / risk - trigger_r⌋ : ℚ) * risk), true⟩ := by
            simp [trailUpdLadder, ha, hma, htr, hlad]
          rw [hres]
          exact ⟨by simp, le_trans hle (le_max_left _ _)⟩
      · cases hma : d.ma with
        | some m =>
          have hres : trailUpdLadder buy risk trigger_r trigger_price st d =
              ⟨max buy m, true⟩ := by
            simp [trailUpdLadder, ha, hma, htr, hlad]
          rw [hres]
          exact ⟨by simp, le_trans hle (le_max_left _ _)⟩
        | none =>
          have hres : trailUpdLadder buy risk trigger_r trigger_price st d =
              ⟨buy, true⟩ := by
            simp [trailUpdLadder, ha, hma, htr, hlad]
          rw [hres]
          exact ⟨by simp, hle⟩
    · have hres : trailUpdLadder buy risk trigger_r trigger_price st d = st := by
        simp [trailUpdLadder, ha, htr]
      rw [hres]
      exact ⟨fun _ => h ha, le_refl _⟩

/-- C7: along both trailing walks — the plain indicator trail of
simulate_exit_trailing and the ladder variant of generate_trade_candidates —
the sequence of current_stop values carried into the successive days is
pairwise non-decreasing (so for any days i ≤ j before exit, stop_i ≤ stop_j),
for any pattern of present or missing (NaN) indicator values, provided the
initial stop is at or below the breakeven level the trigger would set. -/
theorem c7_trailing_stop_monotone :
    (∀ (rb trig stop0 : ℚ) (days : List TrailDay), stop0 ≤ rb →
        ((List.scanl (trailUpdV2 rb trig) ⟨stop0, false⟩ days).map
            TrailSt.current_stop).Pairwise (· ≤ ·))
    ∧ (∀ (buy risk trigger_r trigger_price stop0 : ℚ) (days : List TrailDay),
        stop0 ≤ buy →
        ((List.scanl (trailUpdLadder buy risk trigger_r trigger_price)
            ⟨stop0, false⟩ days).map TrailSt.current_stop).Pairwise (· ≤ ·)) := by
  constructor
  · intro rb trig stop0 days h0
    refine List.chain'_iff_pairwise.mp ?_
    exact scanl_map_chain' (trailUpdV2 rb trig) TrailSt.current_stop
      (fun s => s.trailing_active = false → s.current_stop ≤ rb)
      (fun s a hs => (trailUpdV2_inv_mono rb trig s a hs).1)
      (fun s a hs => (trailUpdV2_inv_mono rb trig s a hs).2)
      days ⟨stop0, false⟩ (fun _ => h0)
  · intro buy risk trigger_r trigger_price stop0 days h0
    refine List.chain'_iff_pairwise.mp ?_
    exact scanl_map_chain' (trailUpdLadder buy risk trigger_r trigger_price)
      TrailSt.current_stop
      (fun s => s.trailing_active = false → s.current_stop ≤ buy)
      (fun s a hs => (trailUpdLadder_inv_mono buy risk trigger_r trigger_price s a hs).1)
      (fun s a hs => (trailUpdLadder_inv_mono buy risk trigger_r trigger_price s a hs).2)
      days ⟨stop0, false⟩ (fun _ => h0)

/-- Witness for c7_trailing_stop_monotone on a concrete two-day walk. -/
theorem c7_trailing_stop_monotone_witness :
    ((List.scanl (trailUpdV2 (101/2) 60) ⟨45, false⟩
        [⟨70, 60, 65, some 52⟩, ⟨80, 70, 75, none⟩]).map
        TrailSt.current_stop).Pairwise (· ≤ ·)
    ∧ ((List.scanl (trailUpdLadder 50 5 2 60) ⟨45, false⟩
        [⟨70, 60, 65, some 52⟩, ⟨80, 70, 75, none⟩]).map
        TrailSt.current_stop).Pairwise (· ≤ ·) :=
  ⟨c7_trailing_stop_monotone.1 (101/2) 60 45
      [⟨70, 60, 65, some 52⟩, ⟨80, 70, 75, none⟩] (by norm_num),
   c7_trailing_stop_monotone.2 50 5 2 60 45
      [⟨70, 60, 65, some 52⟩, ⟨80, 70, 75, none⟩] (by norm_num)⟩

/-- C8: the trade cost model. get_tick_size follows the price bands 0.01
below 10 up to 5.0 at and above 1000; calculate_net_pnl charges the
proportional fee on both legs and the tax on the sell leg only, returning
(proceeds - cost) / cost; and the pnl simulate_exit_fixed reports is exactly
calculate_net_pnl applied to the entry price plus one tick and its raw exit
price minus one tick. -/
theorem c8_cost_model :
    (∀ p : ℚ,
        (p < 10 → get_tick_size p = 1/100)
        ∧ (10 ≤ p → p < 50 → get_tick_size p = 1/20)
        ∧ (50 ≤ p → p < 100 → get_tick_size p = 1/10)
        ∧ (100 ≤ p → p < 500 → get_tick_size p = 1/2)
        ∧ (500 ≤ p → p < 1000 → get_tick_size p = 1)
        ∧ (1000 ≤ p → get_tick_size p = 5))
    ∧ (∀ buy sell : ℚ, calculate_net_pnl buy sell =
        (sell * (1 - FEE_RATE - TAX_RATE) - buy * (1 + FEE_RATE)) /
          (buy * (1 + FEE_RATE)))
    ∧ (∀ (high low close : List ℚ) (entry_idx : ℕ)
        (buy stop r_mult : ℚ) (time_exit : ℕ) (res : SimResult),
        simulate_exit_fixed high low close entry_idx buy stop r_mult time_exit =
            some res →
        res.pnl = calculate_net_pnl (buy + get_tick_size buy)
          (res.raw_exit_price - get_tick_size res.raw_exit_price)) := by
  refine ⟨?_, ?_, ?_⟩
  · intro p
    refine ⟨fun h1 => ?_, fun h1 h2 => ?_, fun h1 h2 => ?_, fun h1 h2 => ?_,
      fun h1 h2 => ?_, fun h1 => ?_⟩ <;>
      unfold get_tick_size <;>
      split_ifs <;> first | rfl | linarith
  · intro buy sell
    rfl
  · intro high low close entry_idx buy stop r_mult time_exit res h
    simp only [simulate_exit_fixed] at h
    split at h
    · exact absurd h (by simp)
    · obtain rfl := Option.some.inj h
      rfl

/-- Witness for c8_cost_model at concrete inputs. -/
theorem c8_cost_model_witness :
    get_tick_size 5 = 1/100
    ∧ (⟨0, 223/2, 6637/67067⟩ : SimResult).pnl =
        calculate_net_pnl (100 + get_tick_size 100)
          ((⟨0, 223/2, 6637/67067⟩ : SimResult).raw_exit_price -
            get_tick_size ((⟨0, 223/2, 6637/67067⟩ : SimResult).raw_exit_price)) := by
  constructor
  · exact (c8_cost_model.1 5).1 (by norm_num)
  · exact c8_cost_model.2.2 [112] [94] [100] 0 100 95 2 20
      ⟨0, 223/2, 6637/67067⟩
      (by norm_num [simulate_exit_fixed, get_tick_size, calculate_net_pnl,
        FEE_RATE, TAX_RATE, List.findIdx?])

/-- The Sharpe formula with a positive variance vanishes exactly when the
mean daily return equals the daily risk-free rate. -/
theorem sharpe_formula_eq_zero_iff (l : List ℚ) (hv : 0 < varQ l) :
    ((meanQ l - riskFreeDaily : ℚ) : ℝ) / Real.sqrt (varQ l) *
        Real.sqrt 252 = 0 ↔
      meanQ l = riskFreeDaily := by
  have hsv : Real.sqrt (varQ l) ≠ 0 :=
    ne_of_gt (Real.sqrt_pos.mpr (by exact_mod_cast hv))
  have h252 : Real.sqrt 252 ≠ 0 :=
    ne_of_gt (Real.sqrt_pos.mpr (by norm_num))
  constructor
  · intro h
    rcases mul_eq_zero.mp h with h1 | h1
    · rcases div_eq_zero_iff.mp h1 with h2 | h2
      · have hz : (meanQ l - riskFreeDaily : ℚ) = 0 := by exact_mod_cast h2
        linarith [hz]
      · exact absurd h2 hsv
    · exact absurd h1 h252
  · intro h
    rw [h]
    simp

/-- C9 (amended): the Sharpe ratio of a daily return series vanishes in more
cases than zero variance. In backtest_engine_v2's calculate_metrics (guard
std > 0, which NaN fails), Sharpe = 0 iff the series is shorter than 2, or its
variance is 0, or its mean equals the daily risk-free rate. In
backtest_patterns' calculate_metrics (guard std == 0), the same
variance-or-mean dichotomy holds for series of length at least 2, but a
length-1 series yields NaN (none), not 0. -/
theorem c9_sharpe_zero_iff (l : List ℚ) :
    (sharpe l = 0 ↔
      (l.length < 2 ∨ varQ l = 0 ∨ meanQ l = riskFreeDaily))
    ∧ (2 ≤ l.length →
      (sharpePatterns l = some 0 ↔
        (varQ l = 0 ∨ meanQ l = riskFreeDaily)))
    ∧ (l.length < 2 → sharpePatterns l = none) := by
  refine ⟨?_, ?_, ?_⟩
  · unfold sharpe
    by_cases hc : 2 ≤ l.length ∧ 0 < varQ l
    · rw [if_pos hc]
      rw [sharpe_formula_eq_zero_iff l hc.2]
      constructor
      · intro h
        right; right; exact h
      · rintro (h | h | h)
        · exact absurd hc.1 (by omega)
        · exact absurd h (ne_of_gt hc.2)
        · exact h
    · rw [if_neg hc]
      refine iff_of_true rfl ?_
      by_cases hl : 2 ≤ l.length
      · right; left
        have hv : ¬ 0 < varQ l := fun hv => hc ⟨hl, hv⟩
        exact le_antisymm (not_lt.mp hv) (varQ_nonneg l)
      · left; omega
  · intro hl
    unfold sharpePatterns
    rw [if_pos hl]
    by_cases hv : varQ l = 0
    · rw [if_pos hv]
      exact iff_of_true rfl (Or.inl hv)
    · rw [if_neg hv]
      have hvpos : 0 < varQ l := lt_of_le_of_ne (varQ_nonneg l) (Ne.symm hv)
      rw [Option.some_inj, sharpe_formula_eq_zero_iff l hvpos]
      constructor
      · intro h
        right; exact h
      · rintro (h | h)
        · exact absurd h hv
        · exact h
  · intro hl
    unfold sharpePatterns
    rw [if_neg (by omega)]

/-- Witness for c9_sharpe_zero_iff at concrete series. -/
theorem c9_sharpe_zero_iff_witness :
    (sharpePatterns [0, 1/6300] = some 0 ↔
      (varQ [0, 1/6300] = 0 ∨ meanQ [0, 1/6300] = riskFreeDaily))
    ∧ sharpePatterns [0] = none :=
  ⟨(c9_sharpe_zero_iff [0, 1/6300]).2.1 (by norm_num),
   (c9_sharpe_zero_iff [0]).2.2 (by norm_num)⟩

/-- C9 counterexample: one trade of profit 10000/63 entered on day 0 and
exited on day 1 yields the daily return series [0, 1/6300], whose variance is
positive while its mean equals the daily risk-free rate 1/12600 — so both
cited implementations compute Sharpe 0 even though the series does not have
zero variance. Moreover a same-day round-trip trade (exC9b) yields the
length-1 return series [0], where the patterns variant yields NaN (none)
rather than the 0 the claim asserts for too-short series. -/
theorem c9_counterexample_zero_sharpe_positive_variance :
    0 < varQ (dailyReturns exC9)
    ∧ meanQ (dailyReturns exC9) = riskFreeDaily
    ∧ sharpe (dailyReturns exC9) = 0
    ∧ sharpePatterns (dailyReturns exC9) = some 0
    ∧ dailyReturns exC9b = [0]
    ∧ sharpePatterns (dailyReturns exC9b) = none := by
  have hrets : dailyReturns exC9 = [0, 1/6300] := by
    norm_num [dailyReturns, exC9, equityCurve, pctChanges, cumsum, intRange,
      dailyPnl, INITIAL_CAPITAL, List.range_succ, List.min?, List.max?,
      List.scanl]
  have hvar : varQ (dailyReturns exC9) = 1/79380000 := by
    rw [hrets]
    norm_num [varQ, meanQ]
  have hmean : meanQ (dailyReturns exC9) = riskFreeDaily := by
    rw [hrets]
    norm_num [meanQ, riskFreeDaily, RISK_FREE_RATE]
  have hretsb : dailyReturns exC9b = [0] := by
    norm_num [dailyReturns, exC9b, equityCurve, pctChanges, cumsum, intRange,
      dailyPnl, INITIAL_CAPITAL, List.range_succ, List.min?, List.max?,
      List.scanl]
  refine ⟨by rw [hvar]; norm_num, hmean, ?_, ?_, hretsb, ?_⟩
  · unfold sharpe
    rw [if_pos ⟨by rw [hrets]; norm_num, by rw [hvar]; norm_num⟩, hmean]
    simp
  · unfold sharpePatterns
    rw [if_pos (by rw [hrets]; norm_num),
      if_neg (by rw [hvar]; norm_num), hmean]
    simp
  · unfold sharpePatterns
    rw [if_neg (by rw [hretsb]; norm_num)]

end Stock
